import Mathlib

/-!
Shallow embedding of `src/gogolin/batch_image_processor.py`
(`BatchImageProcessor` and its helpers).

Python strings are modelled as lists of Unicode code points (`List Nat`).
`str.lower` is modelled on the ASCII range (the only range the configured
extension sets and the claims exercise).  Filesystem facts that the code
queries (`os.path.exists`, `os.path.isdir`, `os.listdir`) are inputs of the
model; the external capabilities (`read_local_images` and the
`apply / pipe_ocr_mode / dump_md` chain around `doc_analyze`) are opaque
function parameters that may fail, mirroring a raised Python exception by
an `Except` error carrying the exception message.  `clean_memory` is an
opaque resource-release effect; it is recorded in an event trace.
-/

/-- A Python string: the list of its Unicode code points. -/
abbrev PyStr := List Nat

/-- Code points of a Lean string literal, used to write concrete examples. -/
def pyStr (s : String) : PyStr := s.data.map Char.toNat

/-- Code point of `'.'`. -/
def dotCp : Nat := 46

/-- Code point of `'/'`. -/
def slashCp : Nat := 47

/-- Is `n` the code point of an ASCII uppercase letter `A`..`Z`? -/
def isAsciiUpper (n : Nat) : Bool := 65 ≤ n && n ≤ 90

/-- `str.lower` on one code point, on the ASCII range: `A`..`Z` maps to
`a`..`z`, everything else is unchanged. -/
def lowerChar (n : Nat) : Nat := if isAsciiUpper n then n + 32 else n

/-- `str.lower` on a string (ASCII range). -/
def lowerStr (s : PyStr) : PyStr := s.map lowerChar

/-- Split a REVERSED string at its first dot (= the last dot of the original
string): `revSplitAtDot r = some (post, pre)` means `r = post ++ dotCp :: pre`
with no dot in `post`.  Returns `none` when `r` has no dot.  Helper for
`pathSuffix` and `splitextStem`. -/
def revSplitAtDot : PyStr → Option (PyStr × PyStr)
  | [] => none
  | c :: cs =>
    if c = dotCp then some ([], cs)
    else
      match revSplitAtDot cs with
      | some (post, pre) => some (c :: post, pre)
      | none => none

/-- `pathlib.Path(file).suffix` for a bare filename (no path separator, as
produced by `os.listdir`): with `i` the index of the last dot, the suffix is
`name[i:]` when `0 < i < len(name) - 1`, else `""`. -/
def pathSuffix (s : PyStr) : PyStr :=
  match revSplitAtDot s.reverse with
  | some (revPost, revPre) =>
    if revPost ≠ [] ∧ revPre ≠ [] then dotCp :: revPost.reverse else []
  | none => []

/-- The stem `os.path.splitext(name)[0]` for a bare filename (no path
separator): split at the last dot, unless every character before that dot is
itself a dot (then there is no extension and the stem is the whole name). -/
def splitextStem (s : PyStr) : PyStr :=
  match revSplitAtDot s.reverse with
  | some (_, revPre) =>
    let pre := revPre.reverse
    if pre.all (· = dotCp) then s else pre
  | none => s

/-- `os.path.join(a, b)` (POSIX): `b` if `b` is absolute, else `a ++ b` with a
single separator inserted when `a` is nonempty and does not end in one. -/
def osPathJoin (a b : PyStr) : PyStr :=
  if b.head? = some slashCp then b
  else if a = [] ∨ a.getLast? = some slashCp then a ++ b
  else a ++ slashCp :: b

/-- Code points of `".md"`, the fixed output extension (`f"{filename}.md"`). -/
def mdExt : PyStr := pyStr ".md"

/-- The output artifact name used at lines 202 and 213 of the source:
`filename = os.path.splitext(image_name)[0]` then `f"{filename}.md"`. -/
def output_md_name (image_name : PyStr) : PyStr := splitextStem image_name ++ mdExt

/-- The default accepted-extension list from `__init__`. -/
def default_supported_formats : List PyStr := [pyStr ".png", pyStr ".jpg", pyStr ".jpeg"]

/-- `self.supported_formats = supported_formats or [".png", ".jpg", ".jpeg"]`
(line 45): both `None` and the empty list are falsy in Python, so both fall
back to the default list. -/
def resolve_supported_formats : Option (List PyStr) → List PyStr
  | none => default_supported_formats
  | some [] => default_supported_formats
  | some (f :: fs) => f :: fs

/-- `BatchImageProcessor._collect_image_files` (lines 136-144): iterate the
directory listing in order; keep `(os.path.join(directory, file), file)` for
each entry whose `Path(file).suffix.lower()` is a member of
`supported_formats`. -/
def collect_image_files (fmts : List PyStr) (directory : PyStr) : List PyStr → List (PyStr × PyStr)
  | [] => []
  | file :: rest =>
    if lowerStr (pathSuffix file) ∈ fmts then
      (osPathJoin directory file, file) :: collect_image_files fmts directory rest
    else
      collect_image_files fmts directory rest

/-- `BatchImageProcessor._load_datasets` (lines 158-169).  `readLocal` is the
external `read_local_images(image_path, suffixes=...)`: it returns a list of
datasets or raises (modelled by `Except`, the error being the exception
message).  A raise for one file is caught, logged and skipped; a truthy
(nonempty) result extends `dss` and extends `ds_paths` with
`[image_name] * len(ds)`. -/
def load_datasets {DS : Type} (readLocal : PyStr → List PyStr → Except PyStr (List DS))
    (fmts : List PyStr) : List (PyStr × PyStr) → List DS × List PyStr
  | [] => ([], [])
  | pf :: rest =>
    let tail := load_datasets readLocal fmts rest
    match readLocal pf.1 fmts with
    | .ok ds => if ds.isEmpty then tail else (ds ++ tail.1, List.replicate ds.length pf.2 ++ tail.2)
    | .error _ => tail

/-- The per-run options forwarded verbatim to the transform capability
(`process_directory` parameters `lang`, `show_log`, `layout_model`,
`formula_enable`). -/
structure RunOptions where
  lang : PyStr
  show_log : Bool
  layout_model : PyStr
  formula_enable : Bool
deriving DecidableEq

/-- Observable per-item events of the processing loop: one `transform` event
per invocation of the external
`ds.apply(doc_analyze, ...).pipe_ocr_mode(...).dump_md(md_writer, name, ...)`
chain (recording the dataset and the output markdown name), and one
`cleanMemory` event per call of `clean_memory()`. -/
inductive Event (DS : Type) where
  | transform (ds : DS) (mdName : PyStr)
  | cleanMemory
deriving DecidableEq

/-- One iteration of the loop body of `_process_images`, acting on the
`(processed, failed)` accumulator: the `try` block with its per-item
`except` clause. -/
def item_step {DS : Type} (transform : DS → PyStr → RunOptions → Except PyStr Unit)
    (opts : RunOptions) (acc : Nat × Nat) (p : DS × PyStr) : Nat × Nat :=
  match transform p.1 (output_md_name p.2) opts with
  | .ok _ => (acc.1 + 1, acc.2)
  | .error _ => (acc.1, acc.2 + 1)

/-- `BatchImageProcessor._process_images` (lines 193-232), counters only.
`transform` is the external chain around `doc_analyze`; a raise anywhere in
the `try` block is caught by the per-item `except`, which increments `failed`
and continues.  On success `processed` is incremented and `clean_memory()` is
called; `clean_memory` is modelled as a non-raising effect (its body is
outside this repository).  `total = len(dss)`, and the loop runs over
`zip(dss, ds_paths)`. -/
def process_images {DS : Type} (transform : DS → PyStr → RunOptions → Except PyStr Unit)
    (opts : RunOptions) (dss : List DS) (ds_paths : List PyStr) : Nat × Nat × Nat :=
  let total := dss.length
  let counts := (dss.zip ds_paths).foldl (item_step transform opts) (0, 0)
  (total, counts.1, counts.2)

/-- The events one loop iteration of `_process_images` emits: the transform
invocation, then a `cleanMemory` event exactly when the transform succeeded
(in the source, `clean_memory()` is inside the `try` block after
`processed += 1`, so it is not reached when the transform raised). -/
def item_events {DS : Type} (transform : DS → PyStr → RunOptions → Except PyStr Unit)
    (opts : RunOptions) (p : DS × PyStr) : List (Event DS) :=
  match transform p.1 (output_md_name p.2) opts with
  | .ok _ => [Event.transform p.1 (output_md_name p.2), Event.cleanMemory]
  | .error _ => [Event.transform p.1 (output_md_name p.2)]

def process_images_trace {DS : Type} (transform : DS → PyStr → RunOptions → Except PyStr Unit)
    (opts : RunOptions) (dss : List DS) (ds_paths : List PyStr) :
    (Nat × Nat × Nat) × List (Event DS) :=
  (process_images transform opts dss ds_paths,
    (dss.zip ds_paths).flatMap (item_events transform opts))

/-- The message of the `ValueError` raised at line 102:
`f"Invalid directory: {abs_input_dir}"`. -/
def invalidDirectoryMsg (absDir : PyStr) : PyStr := pyStr "Invalid directory: " ++ absDir

/-- The message of the `ValueError` raised at line 115. -/
def noValidImagesMsg : PyStr := pyStr "No valid images could be loaded"

/-- The filesystem facts `process_directory` queries about the (resolved)
input directory: `os.path.exists`, `os.path.isdir`, and the directory
listing `os.listdir` in listing order. -/
structure DirState where
  pathExists : Bool
  pathIsDir : Bool
  listing : List PyStr
deriving DecidableEq

/-- `BatchImageProcessor.process_directory` (lines 96-125).  `abs_input_dir`
is the already-resolved `os.path.abspath(input_directory)`.  A raised
`ValueError` is modelled as `Except.error` carrying its message. -/
def process_directory {DS : Type} (fmts : List PyStr)
    (readLocal : PyStr → List PyStr → Except PyStr (List DS))
    (transform : DS → PyStr → RunOptions → Except PyStr Unit)
    (fsState : DirState) (abs_input_dir : PyStr) (opts : RunOptions) :
    Except PyStr (Nat × Nat × Nat) :=
  if !fsState.pathExists || !fsState.pathIsDir then
    .error (invalidDirectoryMsg abs_input_dir)
  else
    let image_files := collect_image_files fmts abs_input_dir fsState.listing
    let loaded := load_datasets readLocal fmts image_files
    if loaded.1.isEmpty then .error noValidImagesMsg
    else .ok (process_images transform opts loaded.1 loaded.2)

/-- `process_directory`, instrumented with the event trace of the processing
loop (empty when a directory-level error is raised before the loop). -/
def process_directory_trace {DS : Type} (fmts : List PyStr)
    (readLocal : PyStr → List PyStr → Except PyStr (List DS))
    (transform : DS → PyStr → RunOptions → Except PyStr Unit)
    (fsState : DirState) (abs_input_dir : PyStr) (opts : RunOptions) :
    Except PyStr (Nat × Nat × Nat) × List (Event DS) :=
  if !fsState.pathExists || !fsState.pathIsDir then
    (.error (invalidDirectoryMsg abs_input_dir), [])
  else
    let image_files := collect_image_files fmts abs_input_dir fsState.listing
    let loaded := load_datasets readLocal fmts image_files
    if loaded.1.isEmpty then (.error noValidImagesMsg, [])
    else
      let r := process_images_trace transform opts loaded.1 loaded.2
      (.ok r.1, r.2)

/-- The claim-side notion of a directory entry matching the accepted set
case-insensitively: some configured extension agrees with the entry's
extension once both are case-folded. -/
def matchesCaseInsensitive (fmts : List PyStr) (file : PyStr) : Bool :=
  fmts.any fun e => lowerStr (pathSuffix file) = lowerStr e

/-- The `transform` events of a trace, in order. -/
def transformEvents {DS : Type} : List (Event DS) → List (DS × PyStr)
  | [] => []
  | Event.transform d n :: rest => (d, n) :: transformEvents rest
  | Event.cleanMemory :: rest => transformEvents rest

/-- Did the transform call return normally (no exception)? -/
def isOkB : Except PyStr Unit → Bool
  | .ok _ => true
  | .error _ => false

/-- Number of `cleanMemory` events in a trace. -/
def countClean {DS : Type} (tr : List (Event DS)) : Nat :=
  tr.countP fun e =>
    match e with
    | Event.cleanMemory => true
    | Event.transform _ _ => false

/-- Concrete run options mirroring the defaults of `process_directory`. -/
def exOpts : RunOptions := ⟨pyStr "ch", true, pyStr "doclayout_yolo", false⟩

/-- A `read_local_images` stub that loads one dataset from every path. -/
def exReadLocalOk : PyStr → List PyStr → Except PyStr (List Nat) :=
  fun _ _ => Except.ok [0]

/-- A `read_local_images` stub that raises on `/in/a.png` and loads one
dataset from every other path. -/
def exReadLocalPartial : PyStr → List PyStr → Except PyStr (List Nat) :=
  fun p _ =>
    if p = osPathJoin (pyStr "/in") (pyStr "a.png") then Except.error (pyStr "bad file")
    else Except.ok [7]

/-- A transform capability that always succeeds. -/
def exTransformOk : Nat → PyStr → RunOptions → Except PyStr Unit :=
  fun _ _ _ => Except.ok ()

/-- A transform capability that always raises. -/
def exTransformFail : Nat → PyStr → RunOptions → Except PyStr Unit :=
  fun _ _ _ => Except.error (pyStr "boom")

/-- An existing directory holding one matching image. -/
def exDirOk : DirState := ⟨true, true, [pyStr "a.png"]⟩

/-- An existing directory holding two matching images. -/
def exDirTwo : DirState := ⟨true, true, [pyStr "a.png", pyStr "b.png"]⟩

/-- An existing directory holding no file with an accepted extension. -/
def exDirNoMatch : DirState := ⟨true, true, [pyStr "notes.txt"]⟩

/-- A missing input path. -/
def exDirMissing : DirState := ⟨false, false, []⟩

example : pathSuffix (pyStr "A.PNG") = pyStr ".PNG" := by decide
example : pathSuffix (pyStr ".hidden") = [] := by decide
example : pathSuffix (pyStr "a.") = [] := by decide
example : splitextStem (pyStr "photo1.JPG") = pyStr "photo1" := by decide
example : splitextStem (pyStr "..a.b") = pyStr "..a" := by decide
example : splitextStem (pyStr "...b") = pyStr "...b" := by decide
example : output_md_name (pyStr "photo1.JPG") = pyStr "photo1.md" := by decide

/-! ## Helper lemmas -/

theorem load_datasets_length_eq {DS : Type}
    (readLocal : PyStr → List PyStr → Except PyStr (List DS)) (fmts : List PyStr) :
    ∀ files : List (PyStr × PyStr),
      (load_datasets readLocal fmts files).1.length = (load_datasets readLocal fmts files).2.length := by
  intro files
  induction files with
  | nil => rfl
  | cons pf rest ih =>
    simp only [load_datasets]
    cases h : readLocal pf.1 fmts with
    | ok ds =>
      by_cases hds : ds.isEmpty
      · simpa [hds] using ih
      · simp [hds, ih]
    | error e => simpa using ih

theorem foldl_item_step {DS : Type} (transform : DS → PyStr → RunOptions → Except PyStr Unit)
    (opts : RunOptions) :
    ∀ (l : List (DS × PyStr)) (acc : Nat × Nat),
      l.foldl (item_step transform opts) acc
        = (acc.1 + l.countP (fun p => isOkB (transform p.1 (output_md_name p.2) opts)),
           acc.2 + l.countP (fun p => !isOkB (transform p.1 (output_md_name p.2) opts))) := by
  intro l
  induction l with
  | nil => intro acc; simp
  | cons x xs ih =>
    intro acc
    rw [List.foldl_cons, ih]
    cases h : transform x.1 (output_md_name x.2) opts with
    | ok u =>
      simp [item_step, h, List.countP_cons, isOkB]
      omega
    | error e =>
      simp [item_step, h, List.countP_cons, isOkB]
      omega

theorem process_images_eq {DS : Type} (transform : DS → PyStr → RunOptions → Except PyStr Unit)
    (opts : RunOptions) (dss : List DS) (ds_paths : List PyStr) :
    process_images transform opts dss ds_paths
      = (dss.length,
         (dss.zip ds_paths).countP (fun p => isOkB (transform p.1 (output_md_name p.2) opts)),
         (dss.zip ds_paths).countP (fun p => !isOkB (transform p.1 (output_md_name p.2) opts))) := by
  simp [process_images, foldl_item_step]

theorem countClean_trace {DS : Type} (transform : DS → PyStr → RunOptions → Except PyStr Unit)
    (opts : RunOptions) (dss : List DS) (ds_paths : List PyStr) :
    countClean (process_images_trace transform opts dss ds_paths).2
      = (dss.zip ds_paths).countP (fun p => isOkB (transform p.1 (output_md_name p.2) opts)) := by
  show countClean ((dss.zip ds_paths).flatMap (item_events transform opts)) = _
  induction dss.zip ds_paths with
  | nil => rfl
  | cons x xs ih =>
    rw [List.flatMap_cons, List.countP_cons]
    cases h : transform x.1 (output_md_name x.2) opts with
    | ok u => simp [countClean, item_events, h, isOkB] at ih ⊢; omega
    | error e => simp [countClean, item_events, h, isOkB] at ih ⊢; omega

theorem transformEvents_append {DS : Type} (a b : List (Event DS)) :
    transformEvents (a ++ b) = transformEvents a ++ transformEvents b := by
  induction a with
  | nil => rfl
  | cons e rest ih => cases e <;> simp [transformEvents, ih]

theorem transformEvents_trace {DS : Type} (transform : DS → PyStr → RunOptions → Except PyStr Unit)
    (opts : RunOptions) (dss : List DS) (ds_paths : List PyStr) :
    transformEvents (process_images_trace transform opts dss ds_paths).2
      = (dss.zip ds_paths).map (fun p => (p.1, output_md_name p.2)) := by
  show transformEvents ((dss.zip ds_paths).flatMap (item_events transform opts)) = _
  induction dss.zip ds_paths with
  | nil => rfl
  | cons x xs ih =>
    rw [List.flatMap_cons, transformEvents_append, ih, List.map_cons]
    cases h : transform x.1 (output_md_name x.2) opts <;>
      simp [item_events, h, transformEvents]

theorem revSplitAtDot_of_not_mem {post pre : PyStr} (h : dotCp ∉ post) :
    revSplitAtDot (post ++ dotCp :: pre) = some (post, pre) := by
  induction post with
  | nil => simp [revSplitAtDot]
  | cons c cs ih =>
    simp only [List.mem_cons, not_or] at h
    have hc : ¬c = dotCp := fun hc => h.1 hc.symm
    simp [revSplitAtDot, hc, ih h.2]

theorem splitextStem_concat {stem ext : PyStr} (hs : ∃ c ∈ stem, c ≠ dotCp)
    (he : dotCp ∉ ext) : splitextStem (stem ++ dotCp :: ext) = stem := by
  have hrev : (stem ++ dotCp :: ext).reverse = ext.reverse ++ dotCp :: stem.reverse := by
    simp
  have hne : dotCp ∉ ext.reverse := by simpa using he
  unfold splitextStem
  rw [hrev, revSplitAtDot_of_not_mem hne]
  simp only [List.reverse_reverse]
  rw [if_neg]
  intro hall
  obtain ⟨c, hc, hcne⟩ := hs
  rw [List.all_eq_true] at hall
  exact hcne (by simpa using hall c hc)

theorem isAsciiUpper_lowerChar (n : Nat) : isAsciiUpper (lowerChar n) = false := by
  simp only [lowerChar]
  by_cases h : isAsciiUpper n = true
  · rw [if_pos h]
    simp only [isAsciiUpper, Bool.and_eq_true, decide_eq_true_eq] at h ⊢
    simp only [Bool.and_eq_false_iff, decide_eq_false_iff_not]
    omega
  · rw [if_neg h]
    simpa using h

theorem any_isAsciiUpper_lowerStr (s : PyStr) : (lowerStr s).any isAsciiUpper = false := by
  simp [lowerStr, List.any_map, Function.comp_def, isAsciiUpper_lowerChar]

theorem lowerStr_ne_of_upper {s e : PyStr} (hup : e.any isAsciiUpper = true) :
    lowerStr s ≠ e := by
  intro h
  rw [← h, any_isAsciiUpper_lowerStr] at hup
  exact Bool.false_ne_true hup

theorem collect_drop_upper_formats (fmts : List PyStr) (dir : PyStr) :
    ∀ listing : List PyStr,
      collect_image_files fmts dir listing
        = collect_image_files (fmts.filter fun x => !x.any isAsciiUpper) dir listing := by
  intro listing
  induction listing with
  | nil => rfl
  | cons f rest ih =>
    have hmem : (lowerStr (pathSuffix f) ∈ fmts.filter fun x => !x.any isAsciiUpper)
        ↔ lowerStr (pathSuffix f) ∈ fmts := by
      simp [List.mem_filter, any_isAsciiUpper_lowerStr]
    simp only [collect_image_files]
    by_cases h : lowerStr (pathSuffix f) ∈ fmts
    · rw [if_pos h, if_pos (hmem.mpr h), ih]
    · rw [if_neg h, if_neg (fun hc => h (hmem.mp hc)), ih]

theorem mem_formats_iff_matches {fmts : List PyStr} (hLower : ∀ e ∈ fmts, lowerStr e = e)
    (f : PyStr) :
    (lowerStr (pathSuffix f) ∈ fmts) ↔ matchesCaseInsensitive fmts f = true := by
  simp only [matchesCaseInsensitive, List.any_eq_true, decide_eq_true_eq]
  constructor
  · intro hm
    exact ⟨lowerStr (pathSuffix f), hm, by rw [hLower _ hm]⟩
  · rintro ⟨e, he, heq⟩
    rw [hLower e he] at heq
    rw [heq]
    exact he

theorem countP_add_countP_not {α : Type} (p : α → Bool) (l : List α) :
    l.countP p + l.countP (fun a => !p a) = l.length := by
  induction l with
  | nil => rfl
  | cons x xs ih => by_cases h : p x = true <;> simp [List.countP_cons, h] <;> omega

theorem process_images_counts {DS : Type} (transform : DS → PyStr → RunOptions → Except PyStr Unit)
    (opts : RunOptions) (dss : List DS) (ds_paths : List PyStr)
    (hlen : dss.length = ds_paths.length) :
    (process_images transform opts dss ds_paths).2.1
      + (process_images transform opts dss ds_paths).2.2
      = (process_images transform opts dss ds_paths).1 := by
  rw [process_images_eq]
  show _ + _ = dss.length
  rw [countP_add_countP_not, List.length_zip, hlen, Nat.min_self]

/-! ## Claims -/

/-- C1: every normal return of `process_directory` is a triple
`(total, succeeded, failed)` of natural numbers with
`succeeded + failed = total`, where `total` is the number of loaded items
entering the per-item processing loop (`total = len(dss)`, and the loop over
`zip(dss, ds_paths)` visits exactly that many items because `_load_datasets`
produces lists of equal length). -/
theorem c1_run_counts {DS : Type} (fmts : List PyStr)
    (readLocal : PyStr → List PyStr → Except PyStr (List DS))
    (transform : DS → PyStr → RunOptions → Except PyStr Unit)
    (fsState : DirState) (dir : PyStr) (opts : RunOptions) (t p f : Nat)
    (h : process_directory fmts readLocal transform fsState dir opts = Except.ok (t, p, f)) :
    p + f = t := by
  have hlen := load_datasets_length_eq readLocal fmts (collect_image_files fmts dir fsState.listing)
  have hcounts := process_images_counts transform opts
    (load_datasets readLocal fmts (collect_image_files fmts dir fsState.listing)).1
    (load_datasets readLocal fmts (collect_image_files fmts dir fsState.listing)).2 hlen
  simp only [process_directory] at h
  split at h
  · exact absurd h (by simp)
  · split at h
    · exact absurd h (by simp)
    · rw [Except.ok.injEq] at h
      rw [h] at hcounts
      exact hcounts

/-- C2: per-item failures are isolated.  First conjunct: once the directory
checks pass and loading produced a nonempty dataset list, `process_directory`
returns normally for EVERY transform capability — a raise while transforming
an item (capability-internal errors included) is caught at the item boundary
and only increments the `failed` counter, which counts exactly the failing
items.  Second conjunct: a raise of `read_local_images` for one candidate
file skips that file and the load stage continues with the remaining files
unchanged. -/
theorem c2_item_failure_isolated {DS : Type} (fmts : List PyStr)
    (readLocal : PyStr → List PyStr → Except PyStr (List DS))
    (transform : DS → PyStr → RunOptions → Except PyStr Unit)
    (fsState : DirState) (dir : PyStr) (opts : RunOptions) :
    (fsState.pathExists = true → fsState.pathIsDir = true →
      (load_datasets readLocal fmts (collect_image_files fmts dir fsState.listing)).1 ≠ [] →
      ∃ t p f, process_directory fmts readLocal transform fsState dir opts = Except.ok (t, p, f)
        ∧ f = ((load_datasets readLocal fmts (collect_image_files fmts dir fsState.listing)).1.zip
                 (load_datasets readLocal fmts (collect_image_files fmts dir fsState.listing)).2).countP
                (fun q => !isOkB (transform q.1 (output_md_name q.2) opts)))
    ∧ (∀ (fp fn : PyStr) (rest : List (PyStr × PyStr)) (e : PyStr),
        readLocal fp fmts = Except.error e →
        load_datasets readLocal fmts ((fp, fn) :: rest) = load_datasets readLocal fmts rest) := by
  constructor
  · intro hE hD hne
    set L := load_datasets readLocal fmts (collect_image_files fmts dir fsState.listing) with hL
    refine ⟨L.1.length,
      (L.1.zip L.2).countP (fun q => isOkB (transform q.1 (output_md_name q.2) opts)),
      (L.1.zip L.2).countP (fun q => !isOkB (transform q.1 (output_md_name q.2) opts)),
      ?_, rfl⟩
    have hie : L.1.isEmpty = false := by rw [List.isEmpty_eq_false]; exact hne
    simp only [process_directory, hE, hD, Bool.not_true, Bool.or_self, Bool.false_eq_true,
      if_false, ← hL, hie, process_images_eq]
  · intro fp fn rest e h
    simp [load_datasets, h]

/-- C3: with an existing input directory, a scan yielding zero matching
files makes `process_directory` raise the `ValueError` whose message is
`"No valid images could be loaded"` (the spec's `NoCandidatesError`) instead
of returning `(0, 0, 0)`; the same error is raised when the scan found
candidates but zero of them loaded successfully. -/
theorem c3_zero_candidates_raises {DS : Type} (fmts : List PyStr)
    (readLocal : PyStr → List PyStr → Except PyStr (List DS))
    (transform : DS → PyStr → RunOptions → Except PyStr Unit)
    (fsState : DirState) (dir : PyStr) (opts : RunOptions)
    (hE : fsState.pathExists = true) (hD : fsState.pathIsDir = true) :
    (collect_image_files fmts dir fsState.listing = [] →
      process_directory fmts readLocal transform fsState dir opts = Except.error noValidImagesMsg)
    ∧ ((load_datasets readLocal fmts (collect_image_files fmts dir fsState.listing)).1 = [] →
      process_directory fmts readLocal transform fsState dir opts = Except.error noValidImagesMsg) := by
  have hmain : (load_datasets readLocal fmts (collect_image_files fmts dir fsState.listing)).1 = [] →
      process_directory fmts readLocal transform fsState dir opts = Except.error noValidImagesMsg := by
    intro hload
    simp only [process_directory, hE, hD, Bool.not_true, Bool.or_self, Bool.false_eq_true,
      if_false, hload, List.isEmpty_nil, if_true]
  exact ⟨fun hc => hmain (by rw [hc]; rfl), hmain⟩

/-- C4: directory-level failures are fatal and pre-loop.  A missing or
non-directory input path yields the `ValueError` with message
`"Invalid directory: {abs_input_dir}"` (the spec's `InvalidDirectoryError`);
a scan/load stage yielding zero usable items yields the `ValueError` with
message `"No valid images could be loaded"` (the spec's `NoCandidatesError`).
In both cases the event trace is empty — no item was transformed and no
memory cleanup ran — and the two error kinds are distinct for every input
path.  The last conjunct ties the instrumented run to `process_directory`:
the caller observes the same result. -/
theorem c4_directory_errors_fatal {DS : Type} (fmts : List PyStr)
    (readLocal : PyStr → List PyStr → Except PyStr (List DS))
    (transform : DS → PyStr → RunOptions → Except PyStr Unit)
    (fsState : DirState) (dir : PyStr) (opts : RunOptions) :
    ((fsState.pathExists = false ∨ fsState.pathIsDir = false) →
      process_directory_trace fmts readLocal transform fsState dir opts
        = (Except.error (invalidDirectoryMsg dir), []))
    ∧ (fsState.pathExists = true → fsState.pathIsDir = true →
      (load_datasets readLocal fmts (collect_image_files fmts dir fsState.listing)).1 = [] →
      process_directory_trace fmts readLocal transform fsState dir opts
        = (Except.error noValidImagesMsg, []))
    ∧ invalidDirectoryMsg dir ≠ noValidImagesMsg
    ∧ (process_directory_trace fmts readLocal transform fsState dir opts).1
        = process_directory fmts readLocal transform fsState dir opts := by
  refine ⟨?_, ?_, ?_, ?_⟩
  · intro hv
    have hcond : (!fsState.pathExists || !fsState.pathIsDir) = true := by
      rcases hv with h | h <;> simp [h]
    simp [process_directory_trace, hcond]
  · intro hE hD hload
    simp only [process_directory_trace, hE, hD, Bool.not_true, Bool.or_self, Bool.false_eq_true,
      if_false, hload, List.isEmpty_nil, if_true]
  · intro h
    have h2 := congrArg List.head? h
    have hl : (invalidDirectoryMsg dir).head? = some 73 := rfl
    have hr : noValidImagesMsg.head? = some 78 := rfl
    rw [hl, hr] at h2
    exact absurd (Option.some.injEq .. ▸ h2) (by simp)
  · by_cases hv : (!fsState.pathExists || !fsState.pathIsDir) = true
    · simp [process_directory_trace, process_directory, hv]
    · by_cases hie :
        (load_datasets readLocal fmts (collect_image_files fmts dir fsState.listing)).1.isEmpty = true
      · simp [process_directory_trace, process_directory, hv, hie]
      · simp only [process_directory_trace, process_directory, hv, hie, Bool.false_eq_true,
          if_false]
        rfl

/-- C5 counterexample: a concrete run with a single item whose transform
raises.  The item is counted (`total = 1`, `failed = 1`) but the trace holds
no `cleanMemory` event at all: in the source, `clean_memory()` sits inside
the `try` block after `processed += 1`, so it is skipped when the transform
raises — refuting the claim that the release operation runs exactly once
after each item regardless of outcome. -/
theorem c5_counterexample :
    (process_images_trace exTransformFail exOpts [0] [pyStr "a.png"]).1.1 = 1
    ∧ (process_images_trace exTransformFail exOpts [0] [pyStr "a.png"]).1.2.2 = 1
    ∧ countClean (process_images_trace exTransformFail exOpts [0] [pyStr "a.png"]).2 = 0
    ∧ countClean (process_images_trace exTransformFail exOpts [0] [pyStr "a.png"]).2
        ≠ (process_images_trace exTransformFail exOpts [0] [pyStr "a.png"]).1.1 := by
  refine ⟨rfl, rfl, rfl, ?_⟩
  decide

/-- C5 amended: in every run of the processing loop, `clean_memory` is
invoked exactly once after each item whose transform succeeded (and never
after a failed item): the number of `cleanMemory` events equals the
`processed` counter of the run. -/
theorem c5_clean_memory_after_success {DS : Type}
    (transform : DS → PyStr → RunOptions → Except PyStr Unit) (opts : RunOptions)
    (dss : List DS) (ds_paths : List PyStr) :
    countClean (process_images_trace transform opts dss ds_paths).2
      = (process_images transform opts dss ds_paths).2.1 := by
  rw [countClean_trace, process_images_eq]

/-- C6: when the configured accepted-extension strings are already
lower-case (as the default `[".png", ".jpg", ".jpeg"]` is), the scan keeps
exactly the entries whose extension matches the set case-insensitively —
`"A.PNG"` matches the accepted extension `".png"` — in directory-listing
order, paired with their joined paths. -/
theorem c6_scan_case_insensitive (fmts : List PyStr) (dir : PyStr) (listing : List PyStr)
    (hLower : ∀ e ∈ fmts, lowerStr e = e) :
    collect_image_files fmts dir listing
      = (listing.filter (matchesCaseInsensitive fmts)).map (fun f => (osPathJoin dir f, f)) := by
  induction listing with
  | nil => rfl
  | cons f rest ih =>
    by_cases h : lowerStr (pathSuffix f) ∈ fmts
    · have hm := (mem_formats_iff_matches hLower f).mp h
      simp [collect_image_files, h, List.filter_cons, hm, ih]
    · have hm : ¬matchesCaseInsensitive fmts f = true :=
        fun hc => h ((mem_formats_iff_matches hLower f).mpr hc)
      simp [collect_image_files, h, List.filter_cons, hm, ih]

/-- C7: output naming is deterministic — the artifact name is the input
filename's stem with `".md"` appended, for every extension (hence
independent of the extension and of its case), and concretely
`"photo1.JPG"` yields `"photo1.md"`. -/
theorem c7_output_name_deterministic (stem ext : PyStr) :
    ((∃ c ∈ stem, c ≠ dotCp) → dotCp ∉ ext →
      output_md_name (stem ++ dotCp :: ext) = stem ++ mdExt)
    ∧ output_md_name (pyStr "photo1.JPG") = pyStr "photo1.md" := by
  constructor
  · intro hs he
    rw [output_md_name, splitextStem_concat hs he]
  · decide

/-- C8: loading yields a dataset list and a filename list of equal length,
and the processing loop passes each loaded item to the transform capability
exactly once, in order: the `transform` events of the trace are exactly the
zipped items with their derived output names. -/
theorem c8_each_item_visited_once {DS : Type}
    (readLocal : PyStr → List PyStr → Except PyStr (List DS)) (fmts : List PyStr)
    (files : List (PyStr × PyStr))
    (transform : DS → PyStr → RunOptions → Except PyStr Unit) (opts : RunOptions)
    (dss : List DS) (ds_paths : List PyStr) :
    (load_datasets readLocal fmts files).1.length = (load_datasets readLocal fmts files).2.length
    ∧ transformEvents (process_images_trace transform opts dss ds_paths).2
        = (dss.zip ds_paths).map (fun p => (p.1, output_md_name p.2)) :=
  ⟨load_datasets_length_eq readLocal fmts files, transformEvents_trace transform opts dss ds_paths⟩

/-- C9: only the file's suffix is case-folded, never the configured
extension strings: a configured extension containing an ASCII uppercase
letter is never equal to any lower-cased suffix, so no directory entry
whatsoever is retained by it — dropping all such extensions from the
configured list leaves the scan result unchanged. -/
theorem c9_uppercase_format_never_retains (fmts : List PyStr) (dir : PyStr)
    (listing : List PyStr) (e : PyStr) (file : PyStr)
    (hmem : e ∈ fmts) (hup : e.any isAsciiUpper = true) :
    lowerStr (pathSuffix file) ≠ e
    ∧ collect_image_files fmts dir listing
        = collect_image_files (fmts.filter fun x => !x.any isAsciiUpper) dir listing :=
  ⟨lowerStr_ne_of_upper hup, collect_drop_upper_formats fmts dir listing⟩

/-- C10: constructing with `supported_formats = []` behaves identically to
omitting the argument: `supported_formats or [".png", ".jpg", ".jpeg"]`
treats the falsy empty list like `None`, so both resolve to the default set
and an empty accepted-extension set can never be configured. -/
theorem c10_empty_formats_fall_back :
    resolve_supported_formats (some []) = resolve_supported_formats none
    ∧ resolve_supported_formats (some []) = default_supported_formats :=
  ⟨rfl, rfl⟩

/-! ## Witnesses -/

/-- Witness for C1: a concrete successful run returning `(1, 1, 0)`, with
the counter equation discharged by `c1_run_counts`. -/
theorem c1_run_counts_witness :
    process_directory default_supported_formats exReadLocalOk exTransformOk exDirOk
      (pyStr "/in") exOpts = Except.ok (1, 1, 0)
    ∧ 1 + 0 = 1 :=
  ⟨rfl, c1_run_counts default_supported_formats exReadLocalOk exTransformOk exDirOk
    (pyStr "/in") exOpts 1 1 0 rfl⟩

/-- Witness for C2: a run over two candidates where loading `a.png` raises
and the transform raises on the remaining item still returns normally, and
the failing load of `a.png` is skipped without affecting the rest. -/
theorem c2_item_failure_isolated_witness :
    (∃ t p f,
      process_directory default_supported_formats exReadLocalPartial exTransformFail exDirTwo
        (pyStr "/in") exOpts = Except.ok (t, p, f)
      ∧ f = ((load_datasets exReadLocalPartial default_supported_formats
               (collect_image_files default_supported_formats (pyStr "/in") exDirTwo.listing)).1.zip
             (load_datasets exReadLocalPartial default_supported_formats
               (collect_image_files default_supported_formats (pyStr "/in") exDirTwo.listing)).2).countP
            (fun q => !isOkB (exTransformFail q.1 (output_md_name q.2) exOpts)))
    ∧ load_datasets exReadLocalPartial default_supported_formats
        [(osPathJoin (pyStr "/in") (pyStr "a.png"), pyStr "a.png")]
      = load_datasets exReadLocalPartial default_supported_formats [] :=
  ⟨(c2_item_failure_isolated default_supported_formats exReadLocalPartial exTransformFail
      exDirTwo (pyStr "/in") exOpts).1 rfl rfl (by decide),
   (c2_item_failure_isolated default_supported_formats exReadLocalPartial exTransformFail
      exDirTwo (pyStr "/in") exOpts).2
     (osPathJoin (pyStr "/in") (pyStr "a.png")) (pyStr "a.png") [] (pyStr "bad file") rfl⟩

/-- Witness for C3: an existing directory whose only entry has no accepted
extension makes the run raise the no-candidates `ValueError`. -/
theorem c3_zero_candidates_raises_witness :
    exDirNoMatch.pathExists = true ∧ exDirNoMatch.pathIsDir = true
    ∧ collect_image_files default_supported_formats (pyStr "/in") exDirNoMatch.listing = []
    ∧ process_directory default_supported_formats exReadLocalOk exTransformOk exDirNoMatch
        (pyStr "/in") exOpts = Except.error noValidImagesMsg :=
  ⟨rfl, rfl, by decide,
   (c3_zero_candidates_raises default_supported_formats exReadLocalOk exTransformOk
      exDirNoMatch (pyStr "/in") exOpts rfl rfl).1 (by decide)⟩

/-- Witness for C4: a missing path fails with the invalid-directory error
and an empty trace; a directory with no candidates fails with the
no-candidates error and an empty trace; the two messages differ. -/
theorem c4_directory_errors_fatal_witness :
    process_directory_trace default_supported_formats exReadLocalOk exTransformOk exDirMissing
      (pyStr "/nope") exOpts = (Except.error (invalidDirectoryMsg (pyStr "/nope")), [])
    ∧ process_directory_trace default_supported_formats exReadLocalOk exTransformOk exDirNoMatch
        (pyStr "/in") exOpts = (Except.error noValidImagesMsg, [])
    ∧ invalidDirectoryMsg (pyStr "/nope") ≠ noValidImagesMsg :=
  ⟨(c4_directory_errors_fatal default_supported_formats exReadLocalOk exTransformOk exDirMissing
      (pyStr "/nope") exOpts).1 (Or.inl rfl),
   (c4_directory_errors_fatal default_supported_formats exReadLocalOk exTransformOk exDirNoMatch
      (pyStr "/in") exOpts).2.1 rfl rfl (by decide),
   (c4_directory_errors_fatal default_supported_formats exReadLocalOk exTransformOk exDirMissing
      (pyStr "/nope") exOpts).2.2.1⟩

/-- Witness for C6: the default-style lower-case set `[".png"]` satisfies
the hypothesis, the scan equals the case-insensitive filter, and the
upper-case-named `"A.PNG"` is retained while `"b.txt"` is not. -/
theorem c6_scan_case_insensitive_witness :
    (∀ e ∈ [pyStr ".png"], lowerStr e = e)
    ∧ collect_image_files [pyStr ".png"] (pyStr "/d") [pyStr "A.PNG", pyStr "b.txt"]
        = (([pyStr "A.PNG", pyStr "b.txt"].filter (matchesCaseInsensitive [pyStr ".png"])).map
            (fun f => (osPathJoin (pyStr "/d") f, f)))
    ∧ collect_image_files [pyStr ".png"] (pyStr "/d") [pyStr "A.PNG", pyStr "b.txt"]
        = [(osPathJoin (pyStr "/d") (pyStr "A.PNG"), pyStr "A.PNG")] :=
  ⟨by decide,
   c6_scan_case_insensitive [pyStr ".png"] (pyStr "/d") [pyStr "A.PNG", pyStr "b.txt"] (by decide),
   by decide⟩

/-- Witness for C7: the generic conjunct applied at stem `"photo1"` and
extension body `"JPG"`. -/
theorem c7_output_name_deterministic_witness :
    (∃ c ∈ pyStr "photo1", c ≠ dotCp) ∧ dotCp ∉ pyStr "JPG"
    ∧ output_md_name (pyStr "photo1" ++ dotCp :: pyStr "JPG") = pyStr "photo1" ++ mdExt :=
  ⟨by decide, by decide,
   (c7_output_name_deterministic (pyStr "photo1") (pyStr "JPG")).1 (by decide) (by decide)⟩

/-- Witness for C9: with the configured set `[".PNG"]`, the entry `"a.PNG"`
(whose lowered suffix is `".png"`) is not retained, and dropping the
uppercase-bearing extension leaves the scan unchanged. -/
theorem c9_uppercase_format_never_retains_witness :
    pyStr ".PNG" ∈ [pyStr ".PNG"] ∧ (pyStr ".PNG").any isAsciiUpper = true
    ∧ lowerStr (pathSuffix (pyStr "a.PNG")) ≠ pyStr ".PNG"
    ∧ collect_image_files [pyStr ".PNG"] (pyStr "/d") [pyStr "a.PNG"]
        = collect_image_files ([pyStr ".PNG"].filter fun x => !x.any isAsciiUpper)
            (pyStr "/d") [pyStr "a.PNG"] :=
  ⟨by decide, by decide,
   (c9_uppercase_format_never_retains [pyStr ".PNG"] (pyStr "/d") [pyStr "a.PNG"]
      (pyStr ".PNG") (pyStr "a.PNG") (by decide) (by decide)).1,
   (c9_uppercase_format_never_retains [pyStr ".PNG"] (pyStr "/d") [pyStr "a.PNG"]
      (pyStr ".PNG") (pyStr "a.PNG") (by decide) (by decide)).2⟩
